import Mathlib

/-!
Shallow embedding of the turno-app-api repository (TypeScript) for checking
its natural-language specification.

Sources embedded:
- src/models/turno.model.ts          (data model, Zod schemas, id generation)
- src/repositories/turno.repository.ts  (cloud repository and read-only JSON repository)
- src/services/turno.service.ts      (business-rule validation, Excel import)
- src/utils/date.ts                  (locale-aware date normalization)

Modelling conventions:
- A JavaScript object field that can be key-absent, key-present-with-undefined,
  or present-with-a-value is modelled by `JsOpt`; object spread semantics
  (absent keys do not override, explicit undefined does) is `spreadField`.
- The document store (a Cosmos container or the JSON snapshot) is a list of
  documents; SQL queries over it are filters on the list.
- Timestamps (ISO strings in the source) are opaque `Nat` values: the code only
  ever writes fresh timestamps, never inspects them.
- Fallible code returns `Except String`; error identity is the message text
  (interpolated data values are left out of the messages).
- Storage failures for individual bulk-upsert candidates (network errors in the
  source) are modelled by an explicit failure oracle `failAt : Nat -> Bool`
  indexed by the candidate position.
-/

/-- Three-state field of a JavaScript object: key absent, key present with
value `undefined`, or key present with a value. -/
inductive JsOpt (α : Type) where
  | absent : JsOpt α
  | undef : JsOpt α
  | val : α → JsOpt α
deriving DecidableEq

/-- Serialization view: both `absent` and `undefined` disappear in JSON. -/
def JsOpt.toOption {α : Type} : JsOpt α → Option α
  | .absent => none
  | .undef => none
  | .val v => some v

/-- JavaScript truthiness of a possibly-missing string field
(`undefined` and the empty string are falsy). -/
def JsOpt.truthy : JsOpt String → Bool
  | .val v => v ≠ ""
  | _ => false

/-- Value of a string field, defaulting to the empty string; only used at
places the source has already guarded by truthiness. -/
def JsOpt.valD : JsOpt String → String
  | .val v => v
  | _ => ""

/-- A stored turno document (interface TurnoDocument in turno.model.ts),
after JSON serialization, which drops undefined fields: optional fields are
plain `Option`. Cosmos metadata fields (_rid, _etag, ...) are omitted: callers
must ignore them. -/
structure TurnoDocument where
  id : String
  fecha : String
  turno : Option String
  startShift : Option String
  endShift : Option String
  esVacaciones : Bool
  notas : String
  personaId : Option String
  createdAt : Nat
  updatedAt : Nat
deriving DecidableEq

/-- The payload accepted by the repository operations (type TurnoInsert,
the output type of turnoInsertSchema). `fecha`, `esVacaciones` and `notas`
always carry a value after the Zod defaults; the rest are `JsOpt` because
object-spread update semantics distinguishes absent keys from explicit
undefined. -/
structure TurnoInsert where
  fecha : String
  turno : JsOpt String
  startShift : JsOpt String
  endShift : JsOpt String
  esVacaciones : Bool
  notas : String
  personaId : JsOpt String
deriving DecidableEq

/-- generateTurnoId from turno.model.ts: `personaId ? fecha + "_" + personaId
: fecha` with JavaScript truthiness (undefined and "" are falsy). -/
def generateTurnoId (fecha : String) (personaId : Option String) : String :=
  match personaId with
  | some p => if p = "" then fecha else fecha ++ "_" ++ p
  | none => fecha

/-- createTurnoDocument from turno.model.ts; `now` is the fresh timestamp
`new Date().toISOString()`. `data.notas || ""` is the identity on strings that
already default to "". -/
def createTurnoDocument (data : TurnoInsert) (now : Nat) : TurnoDocument :=
  { id := generateTurnoId data.fecha data.personaId.toOption
    fecha := data.fecha
    turno := data.turno.toOption
    startShift := data.startShift.toOption
    endShift := data.endShift.toOption
    esVacaciones := data.esVacaciones
    notas := data.notas
    personaId := data.personaId.toOption
    createdAt := now
    updatedAt := now }

/-- The document container as a list of documents. -/
abbrev Store := List TurnoDocument

/-- container.item(id, pk).read modelled as lookup by document id. -/
def findById (store : Store) (id : String) : Option TurnoDocument :=
  store.find? (fun d => d.id == id)

/-- TurnoRepository.findByFecha. -/
def findByFecha (store : Store) (fecha : String) (personaId : Option String) :
    Option TurnoDocument :=
  findById store (generateTurnoId fecha personaId)

/-- container.item(id, pk).replace: replace the document with the given id. -/
def replaceById (store : Store) (id : String) (doc : TurnoDocument) : Store :=
  store.map (fun d => if d.id == id then doc else d)

/-- One field of the object spread `{...existing, ...data}`: a key absent from
`data` keeps the old value, a key present (even with value undefined)
overrides it. -/
def spreadField {α : Type} (old : Option α) (new : JsOpt α) : Option α :=
  match new with
  | .absent => old
  | .undef => none
  | .val v => some v

/-- The updated document built by TurnoRepository.update:
`{...existing, ...data, updatedAt: now}`. `data` (a TurnoInsert) always
carries fecha, esVacaciones and notas, never id or createdAt. -/
def mergeDoc (existing : TurnoDocument) (data : TurnoInsert) (now : Nat) :
    TurnoDocument :=
  { id := existing.id
    fecha := data.fecha
    turno := spreadField existing.turno data.turno
    startShift := spreadField existing.startShift data.startShift
    endShift := spreadField existing.endShift data.endShift
    esVacaciones := data.esVacaciones
    notas := data.notas
    personaId := spreadField existing.personaId data.personaId
    createdAt := existing.createdAt
    updatedAt := now }

/-- TurnoRepository.update: read the existing document, spread the new data
over it, replace. Returns none when no document has the id (the 404 branch). -/
def TurnoRepository.update (store : Store) (id : String) (data : TurnoInsert)
    (now : Nat) : Store × Option TurnoDocument :=
  match findById store id with
  | none => (store, none)
  | some existing =>
    let updated := mergeDoc existing data now
    (replaceById store id updated, some updated)

/-- TurnoRepository.create: insert a fresh document. (The 409 duplicate branch
is unreachable from upsert, which only creates after a failed lookup.) -/
def TurnoRepository.create (store : Store) (data : TurnoInsert) (now : Nat) :
    Store × TurnoDocument :=
  let document := createTurnoDocument data now
  (store ++ [document], document)

/-- TurnoRepository.upsert: find by (fecha, personaId) key, then update or
create. In the update branch the source casts the nullable result with
`as TurnoDocument`; the null case is unreachable because the lookup just
succeeded, the `getD existing` default is a total-function placeholder for it. -/
def TurnoRepository.upsert (store : Store) (data : TurnoInsert) (now : Nat) :
    Store × TurnoDocument :=
  match findByFecha store data.fecha data.personaId.toOption with
  | some existing =>
    let r := TurnoRepository.update store existing.id data now
    (r.1, r.2.getD existing)
  | none => TurnoRepository.create store data now

/-- Result record of bulk operations (interface BulkResult). -/
structure BulkResult where
  inserted : Nat
  updated : Nat
  skipped : Nat
  warnings : List String
  items : List TurnoDocument
deriving DecidableEq

/-- The loop body of TurnoRepository.bulkUpsert, one candidate at a time.
`i` is the current position, `failAt` says whether the storage round-trips for
the candidate at a position throw; a throw is caught, counted as skipped and
turned into a warning, leaving the store untouched. -/
def bulkUpsertGo (failAt : Nat → Bool) (now : Nat) :
    Store → Nat → List TurnoInsert → Store × BulkResult
  | store, _, [] => (store, ⟨0, 0, 0, [], []⟩)
  | store, i, d :: ds =>
    if failAt i then
      let r := bulkUpsertGo failAt now store (i + 1) ds
      (r.1, { r.2 with
        skipped := r.2.skipped + 1
        warnings := ("Error procesando turno para fecha " ++ d.fecha) :: r.2.warnings })
    else
      let existing := findByFecha store d.fecha d.personaId.toOption
      let u := TurnoRepository.upsert store d now
      let r := bulkUpsertGo failAt now u.1 (i + 1) ds
      match existing with
      | some _ => (r.1, { r.2 with updated := r.2.updated + 1, items := u.2 :: r.2.items })
      | none => (r.1, { r.2 with inserted := r.2.inserted + 1, items := u.2 :: r.2.items })

/-- TurnoRepository.bulkUpsert. -/
def TurnoRepository.bulkUpsert (store : Store) (datas : List TurnoInsert)
    (failAt : Nat → Bool) (now : Nat) : Store × BulkResult :=
  bulkUpsertGo failAt now store 0 datas

/-- The candidates whose storage round-trips do not fail, position-indexed. -/
def okSublistGo (failAt : Nat → Bool) : Nat → List TurnoInsert → List TurnoInsert
  | _, [] => []
  | i, d :: ds =>
    if failAt i then okSublistGo failAt (i + 1) ds
    else d :: okSublistGo failAt (i + 1) ds

/-- The candidates of a batch that the failure oracle lets through. -/
def okSublist (datas : List TurnoInsert) (failAt : Nat → Bool) : List TurnoInsert :=
  okSublistGo failAt 0 datas

/-- Sequentially upsert a list of candidates, returning the final store. -/
def upsertAll (now : Nat) : Store → List TurnoInsert → Store
  | store, [] => store
  | store, d :: ds => upsertAll now (TurnoRepository.upsert store d now).1 ds

/-- The documents persisted by sequentially upserting a list of candidates. -/
def persistedDocs (now : Nat) : Store → List TurnoInsert → List TurnoDocument
  | _, [] => []
  | store, d :: ds =>
    (TurnoRepository.upsert store d now).2 ::
      persistedDocs now (TurnoRepository.upsert store d now).1 ds

/-- How many candidates of a sequentially processed list find an existing
document at their (fecha, personaId) key at the moment they are processed. -/
def countExisting (now : Nat) : Store → List TurnoInsert → Nat
  | _, [] => 0
  | store, d :: ds =>
    (if (findByFecha store d.fecha d.personaId.toOption).isSome then 1 else 0) +
      countExisting now (TurnoRepository.upsert store d now).1 ds

/-- Insertion-ordered string-keyed counter, the model of the plain-object
`porTurno` record: `m[k] = (m[k] || 0) + 1` increments in place or appends. -/
def incrKey : List (String × Nat) → String → List (String × Nat)
  | [], k => [(k, 1)]
  | (k0, n) :: rest, k =>
    if k0 == k then (k0, n + 1) :: rest else (k0, n) :: incrKey rest k

/-- Total of all per-shift-type counters. -/
def sumCounts (m : List (String × Nat)) : Nat :=
  (m.map Prod.snd).sum

/-- The statistics record returned by getStats. -/
structure Stats where
  total : Nat
  porTurno : List (String × Nat)
  vacaciones : Nat
deriving DecidableEq

/-- JavaScript truthiness of the stored turno field (`turno.turno` in the
stats loops): undefined and the empty string are falsy. -/
def turnoTruthyB (d : TurnoDocument) : Bool :=
  match d.turno with
  | some v => v ≠ ""
  | none => false

/-- One step of the getStats counting loop: a vacation record tallies
`vacaciones`, another record tallies `porTurno` only when a (truthy) shift
type is present. -/
def statsStep (acc : List (String × Nat) × Nat) (d : TurnoDocument) :
    List (String × Nat) × Nat :=
  if d.esVacaciones then (acc.1, acc.2 + 1)
  else if turnoTruthyB d then (incrKey acc.1 (d.turno.getD ""), acc.2)
  else acc

/-- The counting loop of getStats, walking the records in order. -/
def statsLoopGo (acc : List (String × Nat) × Nat) :
    List TurnoDocument → List (String × Nat) × Nat
  | [] => acc
  | d :: ds => statsLoopGo (statsStep acc d) ds

/-- The shared counting loop of both getStats implementations. -/
def statsLoop (docs : List TurnoDocument) : List (String × Nat) × Nat :=
  statsLoopGo ([], 0) docs

/-- The date-range WHERE clause built by TurnoRepository.getStats, as a filter
over the container (Cosmos SQL string comparison modelled by the Lean string
order). -/
def cloudStatsFilter (fromDate toDate : Option String) (docs : List TurnoDocument) :
    List TurnoDocument :=
  match fromDate, toDate with
  | some f, some t => docs.filter (fun d => decide (f ≤ d.fecha) && decide (d.fecha ≤ t))
  | some f, none => docs.filter (fun d => decide (f ≤ d.fecha))
  | none, some t => docs.filter (fun d => decide (d.fecha ≤ t))
  | none, none => docs

/-- TurnoRepository.getStats (the cloud backend). -/
def TurnoRepository.getStats (docs : List TurnoDocument)
    (fromDate toDate : Option String) : Stats :=
  let allTurnos := cloudStatsFilter fromDate toDate docs
  let r := statsLoop allTurnos
  { total := allTurnos.length, porTurno := r.1, vacaciones := r.2 }

/-- The date-range filter of JsonTurnoRepository.getStats: applied only when
at least one bound is given, each bound checked independently. -/
def jsonStatsFilter (fromDate toDate : Option String) (docs : List TurnoDocument) :
    List TurnoDocument :=
  if fromDate.isSome || toDate.isSome then
    docs.filter (fun d =>
      !(match fromDate with | some f => decide (d.fecha < f) | none => false) &&
      !(match toDate with | some t => decide (t < d.fecha) | none => false))
  else docs

/-- JsonTurnoRepository.getStats (the read-only JSON backend); its counting
loop is a verbatim copy of the cloud one in the source. -/
def JsonTurnoRepository.getStats (docs : List TurnoDocument)
    (fromDate toDate : Option String) : Stats :=
  let filteredData := jsonStatsFilter fromDate toDate docs
  let r := statsLoop filteredData
  { total := filteredData.length, porTurno := r.1, vacaciones := r.2 }

/-- The regex character class [0-9] (JavaScript \d). -/
def isDig (c : Char) : Bool :=
  c == '0' || c == '1' || c == '2' || c == '3' || c == '4' ||
  c == '5' || c == '6' || c == '7' || c == '8' || c == '9'

/-- Decimal value of a digit character (0 on non-digits; only applied under
digit guards mirroring the regexes of the source). -/
def digitVal (c : Char) : Nat :=
  if c == '1' then 1 else if c == '2' then 2 else if c == '3' then 3
  else if c == '4' then 4 else if c == '5' then 5 else if c == '6' then 6
  else if c == '7' then 7 else if c == '8' then 8 else if c == '9' then 9
  else 0

/-- `Number` on a string of decimal digits (the only call shapes reached under
the regex guards of the source). -/
def numVal (cs : List Char) : Nat :=
  cs.foldl (fun a c => a * 10 + digitVal c) 0

/-- JavaScript String.prototype.trim, structurally over the character list
(whitespace stripped from both ends). -/
def jsTrim (s : String) : String :=
  String.mk
    (((s.toList.dropWhile Char.isWhitespace).reverse.dropWhile
      Char.isWhitespace).reverse)

/-- `split("/")` on the character list. -/
def splitOnSlash : List Char → List (List Char)
  | [] => [[]]
  | c :: cs =>
    if c == '/' then [] :: splitOnSlash cs
    else
      match splitOnSlash cs with
      | [] => [[c]]
      | g :: gs => (c :: g) :: gs

/-- `locale.startsWith("en-US")`, structurally. -/
def isEnUS (locale : String) : Bool :=
  match locale.toList with
  | 'e' :: 'n' :: '-' :: 'U' :: 'S' :: _ => true
  | _ => false

/-- The regex test /^\d{4}-\d{2}-\d{2}$/ (canonical date form). -/
def matchesCanonical (s : String) : Bool :=
  match s.toList with
  | [y1, y2, y3, y4, s1, m1, m2, s2, d1, d2] =>
    isDig y1 && isDig y2 && isDig y3 && isDig y4 && s1 == '-' &&
    isDig m1 && isDig m2 && s2 == '-' && isDig d1 && isDig d2
  | _ => false

/-- One or two decimal digits (the regex \d{1,2} as a whole-segment test). -/
def short12 (cs : List Char) : Bool :=
  match cs with
  | [a] => isDig a
  | [a, b] => isDig a && isDig b
  | _ => false

/-- Exactly four decimal digits. -/
def fourDigits (cs : List Char) : Bool :=
  match cs with
  | [a, b, c, d] => isDig a && isDig b && isDig c && isDig d
  | _ => false

/-- The regex test /^\d{1,2}\/\d{1,2}\/\d{4}$/ (slash-separated short date),
expressed over the slash-split segments. -/
def matchesShortSlash (s : String) : Bool :=
  match splitOnSlash s.toList with
  | [d, m, y] => short12 d && short12 m && fourDigits y
  | _ => false

/-- The strict time regex /^([01]\d|2[0-3]):([0-5]\d)$/. -/
def isValidTimeHHMM (s : String) : Bool :=
  match s.toList with
  | [h1, h2, c, m1, m2] =>
    c == ':' &&
    ((h1 == '0' || h1 == '1') && isDig h2 ||
     h1 == '2' && (h2 == '0' || h2 == '1' || h2 == '2' || h2 == '3')) &&
    (m1 == '0' || m1 == '1' || m1 == '2' || m1 == '3' || m1 == '4' || m1 == '5') &&
    isDig m2
  | _ => false

/-- `split(":")` on the character list (the split of "HH:MM" strings). -/
def splitOnColon : List Char → List (List Char)
  | [] => [[]]
  | c :: cs =>
    if c == ':' then [] :: splitOnColon cs
    else
      match splitOnColon cs with
      | [] => [[c]]
      | g :: gs => (c :: g) :: gs

/-- `const [h, m] = s.split(":").map(Number); h * 60 + m` from
TurnoService.upsertTurno. Only evaluated on regex-validated HH:MM strings,
where the destructuring always finds two numeric parts. -/
def timeToMinutes (s : String) : Nat :=
  let parts := (splitOnColon s.toList).map numVal
  parts.getD 0 0 * 60 + parts.getD 1 0

/-- `n.toString().padStart(2, "0")` for the bounded hour/minute values. -/
def pad2 (n : Nat) : String :=
  if n < 10 then "0" ++ toString n else toString n

/-- `s.padStart(2, "0")` (string form, used on the excel date captures). -/
def padS2 (s : String) : String :=
  if s.length < 2 then "0" ++ s else s

/-- `n.toString().padStart(4, "0")` on the year. -/
def pad4 (n : Int) : String :=
  let s := toString n
  if s.length < 4 then String.mk (List.replicate (4 - s.length) '0') ++ s else s

/-- Locale configuration (interface LocaleConfig in date.ts). -/
structure LocaleConfig where
  timezone : String
  locale : String
  weekStartsOn : Nat
deriving DecidableEq

/-- detectServerLocale with no TZ/LOCALE environment overrides: the global
default configuration. -/
def defaultLocaleConfig : LocaleConfig :=
  { timezone := "America/Argentina/Buenos_Aires", locale := "es-AR", weekStartsOn := 1 }

/-- A calendar date as the local-time components a JavaScript Date reports
(getFullYear / getMonth + 1 / getDate); LocalizedDate wraps exactly these. -/
structure CivilDate where
  year : Int
  month : Int
  day : Int
deriving DecidableEq

/-- Day count from civil date (days since 1970-01-01, proleptic Gregorian);
the standard civil-from-days conversion used to mirror JavaScript Date
component normalization. -/
def daysFromCivil (y m d : Int) : Int :=
  let y1 := if m ≤ 2 then y - 1 else y
  let era := y1.fdiv 400
  let yoe := y1 - era * 400
  let doy := (153 * (if m > 2 then m - 3 else m + 9) + 2).fdiv 5 + d - 1
  let doe := yoe * 365 + yoe.fdiv 4 - yoe.fdiv 100 + doy
  era * 146097 + doe - 719468

/-- Civil date from day count, inverse of daysFromCivil. -/
def civilFromDays (z0 : Int) : CivilDate :=
  let z := z0 + 719468
  let era := z.fdiv 146097
  let doe := z - era * 146097
  let yoe := (doe - doe.fdiv 1461 + doe.fdiv 36524 - doe.fdiv 146096).fdiv 365
  let y := yoe + era * 400
  let doy := doe - (365 * yoe + yoe.fdiv 4 - yoe.fdiv 100)
  let mp := (5 * doy + 2).fdiv 153
  let d := doy - (153 * mp + 2).fdiv 5 + 1
  let m := if mp < 10 then mp + 3 else mp - 9
  { year := if m ≤ 2 then y + 1 else y, month := m, day := d }

/-- `new Date(year, month, day)` (month 0-based) reduced to its local date
components: the two-digit-year rule, then month and day-of-month overflow
normalization. -/
def jsDate (year month day : Int) : CivilDate :=
  let y0 := if 0 ≤ year ∧ year ≤ 99 then year + 1900 else year
  let ym := y0 + month.fdiv 12
  let mn := month.emod 12
  civilFromDays (daysFromCivil ym (mn + 1) 1 + (day - 1))

/-- LocalizedDate.fromShort: split on "/", read the three numbers in
month-first order for an en-US locale and day-first order otherwise, and
build a Date. -/
def LocalizedDate.fromShort (dateStr : String) (config : LocaleConfig) : CivilDate :=
  let nums := (splitOnSlash dateStr.toList).map numVal
  if isEnUS config.locale then
    jsDate (nums.getD 2 0) ((nums.getD 0 0 : Int) - 1) (nums.getD 1 0)
  else
    jsDate (nums.getD 2 0) ((nums.getD 1 0 : Int) - 1) (nums.getD 0 0)

/-- LocalizedDate.formatISO: zero-padded YYYY-MM-DD from the components. -/
def formatISO (d : CivilDate) : String :=
  pad4 d.year ++ "-" ++ pad2 d.month.toNat ++ "-" ++ pad2 d.day.toNat

/-- normalizeDateInput from date.ts: canonical form is returned unchanged, the
slash-separated short form goes through fromShort, anything else is the
invalid-date-format error. -/
def normalizeDateInput (input : String) (config : LocaleConfig) : Except String String :=
  if matchesCanonical input then .ok input
  else if matchesShortSlash input then
    .ok (formatISO (LocalizedDate.fromShort input config))
  else
    .error ("Formato de fecha no válido: " ++ input ++
      ". Use YYYY-MM-DD o el formato apropiado para su región")

/-- Membership in the z.enum(["mañana", "tarde", "noche"]) of
turnoInsertSchema. -/
def enumTurno (s : String) : Bool :=
  s == "mañana" || s == "tarde" || s == "noche"

/-- A field-level check lifted over an optional field: Zod only validates a
value that is actually supplied. -/
def jsOptField (check : String → Bool) : JsOpt String → Bool
  | .val v => check v
  | _ => true

/-- turnoInsertSchema.parse as a boolean gate: fecha must be canonical, turno
must be one of the three enum values when supplied, the shift times must match
the strict HH:MM regex when supplied. (esVacaciones, notas and personaId
are type-correct by construction.) -/
def turnoInsertSchemaOk (d : TurnoInsert) : Bool :=
  matchesCanonical d.fecha && jsOptField enumTurno d.turno &&
  jsOptField isValidTimeHHMM d.startShift && jsOptField isValidTimeHHMM d.endShift

/-- The vacation business rule of TurnoService.upsertTurno: when esVacaciones
is set, assign undefined to turno, startShift and endShift. -/
def vacClear (d : TurnoInsert) : TurnoInsert :=
  if d.esVacaciones then
    { d with turno := .undef, startShift := .undef, endShift := .undef }
  else d

/-- Zod failure message prefix of upsertTurno. -/
def msgDatosInvalidos : String := "Datos inválidos"

/-- Error of the shift/vacation exclusivity check. -/
def msgConflict : String :=
  "No se puede tener un turno específico y marcar como vacaciones al mismo tiempo"

/-- Error of the paired start/end times check. -/
def msgPairing : String :=
  "Debe proporcionar tanto la hora de inicio como la hora de fin del turno, o ninguna de las dos"

/-- Error of the start-before-end check. -/
def msgOrder : String :=
  "La hora de inicio debe ser anterior a la hora de fin (excepto para turnos nocturnos que cruzan medianoche)"

/-- TurnoService.upsertTurno: Zod validation, date normalization, the
vacation clear, the three cross-field business rules in source order, then
the repository upsert. -/
def TurnoService.upsertTurno (store : Store) (data : TurnoInsert) (now : Nat) :
    Except String (Store × TurnoDocument) :=
  if !turnoInsertSchemaOk data then .error msgDatosInvalidos
  else
    match normalizeDateInput data.fecha defaultLocaleConfig with
    | .error e => .error e
    | .ok fecha =>
      let v := vacClear { data with fecha := fecha }
      if v.turno.truthy && v.esVacaciones then .error msgConflict
      else if (v.startShift.truthy && !v.endShift.truthy) ||
              (!v.startShift.truthy && v.endShift.truthy) then .error msgPairing
      else if v.startShift.truthy && v.endShift.truthy &&
              decide (timeToMinutes v.startShift.valD ≥ timeToMinutes v.endShift.valD) &&
              decide (timeToMinutes v.endShift.valD ≠ 0) then .error msgOrder
      else .ok (TurnoRepository.upsert store v now)

/-- The raw vacaciones cell of an Excel row: z.union of string, number and
boolean. -/
inductive VacVal where
  | b : Bool → VacVal
  | n : Int → VacVal
  | s : String → VacVal
deriving DecidableEq

/-- A raw spreadsheet row as handed to excelRowSchema.parse. -/
structure RawExcelRow where
  fecha : String
  turno : Option String
  startshift : Option String
  endshift : Option String
  vacaciones : VacVal
  notas : Option String
deriving DecidableEq

/-- The parsed row (type ExcelRow, output of excelRowSchema). -/
structure ExcelRow where
  fecha : String
  turno : Option String
  startshift : Option String
  endshift : Option String
  vacaciones : Bool
  notas : String
deriving DecidableEq

/-- `val.toLowerCase().trim()` (toLowerCase restricted to ASCII letters, the
only case-carrying characters the embedded claims evaluate on). -/
def jsLowerTrim (s : String) : String :=
  jsTrim (String.mk (s.toList.map Char.toLower))

/-- One or two leading decimal digits, greedily (the regex \d{1,2} at the
head of a remaining input). -/
def takeShortNum : List Char → Option (String × List Char)
  | [] => none
  | [a] => if isDig a then some (String.mk [a], []) else none
  | a :: b :: rest =>
    if isDig a then
      if isDig b then some (String.mk [a, b], rest)
      else some (String.mk [a], b :: rest)
    else none

/-- A date separator of the excel date regex: the class [\/\-]. -/
def isSep (c : Char) : Bool :=
  c == '/' || c == '-'

/-- The excel date regex /^(\d{1,2})[\/\-](\d{1,2})[\/\-](\d{4})$/ with its
three captures (after a two-digit take, the next character must be a
separator, so the greedy match needs no backtracking). -/
def matchExcelDate (cs : List Char) : Option (String × String × String) :=
  match takeShortNum cs with
  | none => none
  | some (d, r1) =>
    match r1 with
    | s1 :: r2 =>
      if isSep s1 then
        match takeShortNum r2 with
        | none => none
        | some (m, r3) =>
          match r3 with
          | s2 :: r4 =>
            if isSep s2 then
              match r4 with
              | [y1, y2, y3, y4] =>
                if isDig y1 && isDig y2 && isDig y3 && isDig y4 then
                  some (d, m, String.mk [y1, y2, y3, y4])
                else none
              | _ => none
            else none
          | [] => none
      else none
    | [] => none

/-- The fecha transform of excelRowSchema: trim, rewrite a short
day/month/year form to YYYY-MM-DD by string padding (no calendar
normalization), pass a canonical form through, reject the rest. -/
def excelFechaTransform (v : String) : Except String String :=
  let cleaned := jsTrim v
  match matchExcelDate cleaned.toList with
  | some (day, month, year) => .ok (year ++ "-" ++ padS2 month ++ "-" ++ padS2 day)
  | none =>
    if matchesCanonical cleaned then .ok cleaned
    else .error ("Invalid date format: " ++ cleaned)

/-- The tail of the flexible time regex after the hour digits and the optional
colon: optional two-digit minutes, optional whitespace, optional am/pm marker
(case-insensitive), end of input. Returns the minutes capture (defaulted to
"00") and `some isAM` for a marker. Consuming two available minute digits is
forced: skipping them leaves a digit that nothing later can match. -/
def matchTimeTail (cs : List Char) : Option (String × Option Bool) :=
  let p : String × List Char :=
    match cs with
    | a :: b :: rest =>
      if isDig a && isDig b then (String.mk [a, b], rest) else ("00", cs)
    | _ => ("00", cs)
  let rest2 := p.2.dropWhile Char.isWhitespace
  match rest2.map Char.toLower with
  | [] => some (p.1, none)
  | ['a', 'm'] => some (p.1, some true)
  | ['p', 'm'] => some (p.1, some false)
  | _ => none

/-- The optional colon of the flexible time regex: consumed exactly when
present (skipping a present colon can never lead to a match). -/
def matchAfterHours : List Char → Option (String × Option Bool)
  | ':' :: rest => matchTimeTail rest
  | cs => matchTimeTail cs

/-- The flexible time regex /^(\d{1,2}):?(\d{2})?\s*(am|pm)?$/i with its
captures (hours, minutes, am marker). A two-digit hour take is tried first
and backtracks to one digit, matching the greedy regex semantics. -/
def matchTimeRegex (cs : List Char) : Option (String × String × Option Bool) :=
  match cs with
  | [] => none
  | [a] =>
    if isDig a then (matchTimeTail []).map (fun r => (String.mk [a], r.1, r.2))
    else none
  | a :: b :: rest =>
    if isDig a then
      if isDig b then
        match matchAfterHours rest with
        | some r => some (String.mk [a, b], r.1, r.2)
        | none => (matchAfterHours (b :: rest)).map (fun r => (String.mk [a], r.1, r.2))
      else (matchAfterHours (b :: rest)).map (fun r => (String.mk [a], r.1, r.2))
    else none

/-- The shared body of the startshift and endshift transforms of
excelRowSchema: empty input becomes undefined, a flexible-format match is
normalized to HH:MM with am/pm handling and a range check, a strict HH:MM
input passes through, anything else is the invalid-time error. -/
def excelTimeBody (s : String) : Except String (Option String) :=
  if jsTrim s == "" then .ok none
  else
    let cleaned := jsTrim s
    match matchTimeRegex cleaned.toList with
    | some (hs, ms, ampm) =>
      let hour0 := numVal hs.toList
      let minV := numVal ms.toList
      let hour :=
        match ampm with
        | some true => if hour0 == 12 then 0 else hour0
        | some false => if hour0 == 12 then hour0 else hour0 + 12
        | none => hour0
      if hour > 23 || minV > 59 then .error ("Invalid time format: " ++ cleaned)
      else .ok (some (pad2 hour ++ ":" ++ pad2 minV))
    | none =>
      if isValidTimeHHMM cleaned then .ok (some cleaned)
      else .error ("Invalid time format: " ++ cleaned)

/-- The startshift transform of excelRowSchema (undefined passes through). -/
def startshiftTransform : Option String → Except String (Option String)
  | none => .ok none
  | some s => excelTimeBody s

/-- The endshift transform of excelRowSchema, a verbatim copy of the
startshift one in the source. -/
def endshiftTransform : Option String → Except String (Option String)
  | none => .ok none
  | some s => excelTimeBody s

/-- The vacaciones transform of excelRowSchema: booleans pass through,
numbers compare against 1, strings are lowercased, trimmed and compared
against the accepted spellings. -/
def vacacionesTransform : VacVal → Bool
  | .b v => v
  | .n v => v == 1
  | .s v =>
    let lower := jsLowerTrim v
    lower == "sí" || lower == "si" || lower == "true" || lower == "1"

/-- The notas transform: `val?.trim() || ""`. -/
def notasTransform : Option String → String
  | none => ""
  | some v => jsTrim v

/-- excelRowSchema.parse over a raw row (first failing transform reported;
the source aggregates Zod issues, but a failed row is dropped with a warning
either way). -/
def excelRowSchemaParse (r : RawExcelRow) : Except String ExcelRow := do
  let fecha ← excelFechaTransform r.fecha
  let startshift ← startshiftTransform r.startshift
  let endshift ← endshiftTransform r.endshift
  pure
    { fecha := fecha
      turno := r.turno.map jsLowerTrim
      startshift := startshift
      endshift := endshift
      vacaciones := vacacionesTransform r.vacaciones
      notas := notasTransform r.notas }

/-- A field written into an object literal from a possibly-undefined value:
the key is always present, so an absent parsed value becomes an explicit
undefined. -/
def optToJs : Option String → JsOpt String
  | none => .undef
  | some s => .val s

/-- JavaScript truthiness of an optional string value. -/
def optTruthy : Option String → Bool
  | some s => s ≠ ""
  | none => false

/-- The per-row phase of TurnoService.processExcelData: parse each row with
excelRowSchema (a failure becomes a row warning and drops the row), warn when
a row carries both a shift and the vacation flag, and build the TurnoInsert
candidate with the vacation fields cleared. Returns the warnings and the
surviving candidates, both in row order; `idx` is the 0-based position
(`rowNumber = idx + 2` in the messages). -/
def excelPhase1 : Nat → List RawExcelRow → List String × List TurnoInsert
  | _, [] => ([], [])
  | idx, r :: rs =>
    let rest := excelPhase1 (idx + 1) rs
    let rowNumber := idx + 2
    match excelRowSchemaParse r with
    | .ok vr =>
      let bw : List String :=
        if vr.vacaciones && optTruthy vr.turno then
          ["Fila " ++ toString rowNumber ++
            ": Se especificó turno y vacaciones, se priorizarán las vacaciones"]
        else []
      let t : TurnoInsert :=
        { fecha := vr.fecha
          turno := if vr.vacaciones then .undef else optToJs vr.turno
          startShift := if vr.vacaciones then .undef else optToJs vr.startshift
          endShift := if vr.vacaciones then .undef else optToJs vr.endshift
          esVacaciones := vr.vacaciones
          notas := vr.notas
          personaId := .absent }
      (bw ++ rest.1, t :: rest.2)
    | .error e =>
      (("Fila " ++ toString rowNumber ++ ": " ++ e) :: rest.1, rest.2)

/-- The duplicate-date pass of TurnoService.processExcelData: walk the
surviving candidates in file order with a seen set, keep a date's first
occurrence, warn about and drop every later one. Returns the kept rows and
the duplicate warnings, both in file order. -/
def dedupByFecha (seen : List String) : List TurnoInsert → List TurnoInsert × List String
  | [] => ([], [])
  | r :: rs =>
    if seen.contains r.fecha then
      let rest := dedupByFecha seen rs
      (rest.1, ("Fecha duplicada en archivo: " ++ r.fecha) :: rest.2)
    else
      let rest := dedupByFecha (r.fecha :: seen) rs
      (r :: rest.1, rest.2)

/-- Specification-level first-occurrence filter: keep each date the first
time it appears, drop all later occurrences. -/
def keepFirstByFecha : List TurnoInsert → List TurnoInsert
  | [] => []
  | r :: rs => r :: keepFirstByFecha (rs.filter (fun x => x.fecha != r.fecha))
termination_by l => l.length
decreasing_by
  simp only [List.length_cons]
  exact Nat.lt_succ_of_le (List.length_filter_le _ _)

/-- TurnoService.processExcelData: row validation, duplicate-date
deduplication, then the repository bulk upsert. The returned record spreads
the bulk result but overrides its warnings with the service-level warning
list (`{...result, warnings}` in the source), so storage warnings are
dropped. -/
def TurnoService.processExcelData (store : Store) (rows : List RawExcelRow)
    (failAt : Nat → Bool) (now : Nat) : Store × BulkResult :=
  let p1 := excelPhase1 0 rows
  let dd := dedupByFecha [] p1.2
  let r := TurnoRepository.bulkUpsert store dd.1 failAt now
  (r.1, { r.2 with warnings := p1.1 ++ dd.2 })

/-- A stored working-day document with a shift type, used as concrete prior
state. -/
def c1exDoc : TurnoDocument :=
  { id := "2025-01-01", fecha := "2025-01-01", turno := some "mañana",
    startShift := none, endShift := none, esVacaciones := false, notas := "",
    personaId := none, createdAt := 1, updatedAt := 1 }

/-- A non-vacation upsert payload for the same key whose optional fields are
all key-absent. -/
def c1exData : TurnoInsert :=
  { fecha := "2025-01-01", turno := .absent, startShift := .absent,
    endShift := .absent, esVacaciones := false, notas := "x", personaId := .absent }

/-- An upsert payload mixing the three field states: turno key-absent,
startShift supplied, endShift explicitly undefined. -/
def c1wData : TurnoInsert :=
  { fecha := "2025-01-01", turno := .absent, startShift := .val "09:00",
    endShift := .undef, esVacaciones := false, notas := "w", personaId := .absent }

/-- A vacation payload that also supplies a shift and times. -/
def c2vacData : TurnoInsert :=
  { fecha := "2025-01-02", turno := .val "tarde", startShift := .val "09:00",
    endShift := .val "17:00", esVacaciones := true, notas := "", personaId := .absent }

/-- A working-day payload with the given shift times. -/
def mkTimesData (s e : JsOpt String) : TurnoInsert :=
  { fecha := "2025-01-02", turno := .absent, startShift := s, endShift := e,
    esVacaciones := false, notas := "", personaId := .absent }

/-- Row 1 of the bulk-import test case of the spec. -/
def c5row1 : RawExcelRow :=
  { fecha := "2025-01-01", turno := some "mañana", startshift := none,
    endshift := none, vacaciones := .b false, notas := none }

/-- Row 2 of the bulk-import test case: a second row for the same date. -/
def c5row2 : RawExcelRow :=
  { fecha := "2025-01-01", turno := some "tarde", startshift := none,
    endshift := none, vacaciones := .b false, notas := none }

/-- Row 3 of the bulk-import test case: a vacation row. -/
def c5row3 : RawExcelRow :=
  { fecha := "2025-01-02", turno := none, startshift := none,
    endshift := none, vacaciones := .b true, notas := none }

/-- A stored non-vacation document without a shift type (reachable: no
business rule requires a shift type on a working day). -/
def c6exDoc : TurnoDocument :=
  { id := "2025-02-01", fecha := "2025-02-01", turno := none,
    startShift := none, endShift := none, esVacaciones := false, notas := "",
    personaId := none, createdAt := 0, updatedAt := 0 }

/-- A lookup by (fecha, personaId) key that returns a document also finds that
document again under its own stored id (the id field matched the key). -/
theorem findById_of_findByFecha {store : Store} {fecha : String}
    {personaId : Option String} {doc : TurnoDocument}
    (h : findByFecha store fecha personaId = some doc) :
    findById store doc.id = some doc := by
  unfold findByFecha at h
  have hid : doc.id = generateTurnoId fecha personaId := by
    have := List.find?_some h
    exact eq_of_beq this
  rw [hid]
  exact h

/-- The document produced by TurnoRepository.upsert: the spread-merge of the
existing document when the key is taken, a fresh document otherwise. -/
theorem upsert_snd (store : Store) (data : TurnoInsert) (now : Nat) :
    (TurnoRepository.upsert store data now).2 =
      match findByFecha store data.fecha data.personaId.toOption with
      | some ex => mergeDoc ex data now
      | none => createTurnoDocument data now := by
  cases h : findByFecha store data.fecha data.personaId.toOption with
  | none => simp [TurnoRepository.upsert, h, TurnoRepository.create]
  | some ex =>
    simp [TurnoRepository.upsert, h, TurnoRepository.update, findById_of_findByFecha h]

/-- C1 counterexample: upserting over an existing record with a payload whose
optional turno key is absent keeps the old shift type in the stored result
instead of clearing it, so the update is not a full-field replace. -/
theorem upsert_absent_field_retained_cex :
    c1exData.turno = JsOpt.absent ∧
    (TurnoRepository.upsert [c1exDoc] c1exData 5).2.turno = some "mañana" ∧
    ¬ (TurnoRepository.upsert [c1exDoc] c1exData 5).2.turno = none := by
  refine ⟨rfl, rfl, ?_⟩
  decide

/-- C1 (amended): a subsequent upsert for an existing key spreads the new
payload over the stored record: fields whose keys the payload carries
(including explicitly-undefined ones) replace the old values, fields whose
keys are absent are retained from the old record, createdAt is preserved and
updatedAt is set to the mutation time. -/
theorem upsert_existing_merge_semantics (store : Store) (data : TurnoInsert)
    (now : Nat) (doc : TurnoDocument)
    (h : findByFecha store data.fecha data.personaId.toOption = some doc) :
    ((TurnoRepository.upsert store data now).2.createdAt = doc.createdAt ∧
     (TurnoRepository.upsert store data now).2.updatedAt = now ∧
     (TurnoRepository.upsert store data now).2.esVacaciones = data.esVacaciones ∧
     (TurnoRepository.upsert store data now).2.notas = data.notas) ∧
    ((data.turno = .absent → (TurnoRepository.upsert store data now).2.turno = doc.turno) ∧
     (data.turno = .undef → (TurnoRepository.upsert store data now).2.turno = none) ∧
     (∀ v, data.turno = .val v → (TurnoRepository.upsert store data now).2.turno = some v)) ∧
    ((data.startShift = .absent →
        (TurnoRepository.upsert store data now).2.startShift = doc.startShift) ∧
     (data.startShift = .undef → (TurnoRepository.upsert store data now).2.startShift = none) ∧
     (∀ v, data.startShift = .val v →
        (TurnoRepository.upsert store data now).2.startShift = some v)) ∧
    ((data.endShift = .absent →
        (TurnoRepository.upsert store data now).2.endShift = doc.endShift) ∧
     (data.endShift = .undef → (TurnoRepository.upsert store data now).2.endShift = none) ∧
     (∀ v, data.endShift = .val v →
        (TurnoRepository.upsert store data now).2.endShift = some v)) := by
  rw [upsert_snd store data now, h]
  refine ⟨⟨rfl, rfl, rfl, rfl⟩, ⟨?_, ?_, ?_⟩, ⟨?_, ?_, ?_⟩, ⟨?_, ?_, ?_⟩⟩
  all_goals
    first
    | (intro he; simp [mergeDoc, spreadField, he])
    | (intro v he; simp [mergeDoc, spreadField, he])

/-- C1 witness: the merge semantics at a concrete store and payload. -/
theorem upsert_existing_merge_semantics_witness :
    findByFecha [c1exDoc] c1wData.fecha c1wData.personaId.toOption = some c1exDoc ∧
    (TurnoRepository.upsert [c1exDoc] c1wData 9).2.createdAt = 1 ∧
    (TurnoRepository.upsert [c1exDoc] c1wData 9).2.updatedAt = 9 ∧
    (TurnoRepository.upsert [c1exDoc] c1wData 9).2.turno = some "mañana" ∧
    (TurnoRepository.upsert [c1exDoc] c1wData 9).2.startShift = some "09:00" ∧
    (TurnoRepository.upsert [c1exDoc] c1wData 9).2.endShift = none := by
  have hf : findByFecha [c1exDoc] c1wData.fecha c1wData.personaId.toOption = some c1exDoc := by
    decide
  have h := upsert_existing_merge_semantics [c1exDoc] c1wData 9 c1exDoc hf
  refine ⟨hf, h.1.1, h.1.2.1, ?_, ?_, ?_⟩
  · exact h.2.1.1 rfl
  · exact h.2.2.1.2.2 "09:00" rfl
  · exact h.2.2.2.2.1 rfl

/-- Fields of the document an upsert persists: esVacaciones always comes from
the payload, and a field the payload carries as explicit undefined is absent
in the stored result on both the create and the update path. -/
theorem upsert_undef_fields (store : Store) (data : TurnoInsert) (now : Nat) :
    (TurnoRepository.upsert store data now).2.esVacaciones = data.esVacaciones ∧
    (data.turno = .undef → (TurnoRepository.upsert store data now).2.turno = none) ∧
    (data.startShift = .undef →
      (TurnoRepository.upsert store data now).2.startShift = none) ∧
    (data.endShift = .undef → (TurnoRepository.upsert store data now).2.endShift = none) := by
  rw [upsert_snd]
  cases h : findByFecha store data.fecha data.personaId.toOption with
  | none =>
    refine ⟨rfl, ?_, ?_, ?_⟩ <;>
      (intro he; simp [createTurnoDocument, he, JsOpt.toOption])
  | some ex =>
    refine ⟨rfl, ?_, ?_, ?_⟩ <;>
      (intro he; simp [mergeDoc, spreadField, he])

/-- Every item produced by the bulk-upsert loop over candidates whose
vacation fields are explicitly undefined has those fields absent when it is a
vacation record. -/
theorem bulkGo_items_vac (failAt : Nat → Bool) (now : Nat) :
    ∀ (datas : List TurnoInsert) (store : Store) (i : Nat),
    (∀ d ∈ datas, d.esVacaciones = true →
      d.turno = .undef ∧ d.startShift = .undef ∧ d.endShift = .undef) →
    ∀ doc ∈ (bulkUpsertGo failAt now store i datas).2.items,
    doc.esVacaciones = true →
    doc.turno = none ∧ doc.startShift = none ∧ doc.endShift = none := by
  intro datas
  induction datas with
  | nil => intro store i _ doc hm; simp [bulkUpsertGo] at hm
  | cons d ds ih =>
    intro store i hQ doc hm hv
    by_cases hf : failAt i
    · simp only [bulkUpsertGo, hf, if_true] at hm
      exact ih store (i + 1)
        (fun x hx => hQ x (List.mem_cons_of_mem d hx)) doc hm hv
    · simp only [bulkUpsertGo, hf, if_false] at hm
      have hitems :
          doc = (TurnoRepository.upsert store d now).2 ∨
          doc ∈ (bulkUpsertGo failAt now (TurnoRepository.upsert store d now).1
            (i + 1) ds).2.items := by
        cases hex : findByFecha store d.fecha d.personaId.toOption <;>
          simp only [hex] at hm <;> exact List.mem_cons.mp hm
      cases hitems with
      | inl he =>
        subst he
        have hu := upsert_undef_fields store d now
        have hdv : d.esVacaciones = true := by rw [← hu.1]; exact hv
        obtain ⟨h1, h2, h3⟩ := hQ d (List.mem_cons_self d ds) hdv
        exact ⟨hu.2.1 h1, hu.2.2.1 h2, hu.2.2.2 h3⟩
      | inr hmem =>
        exact ih (TurnoRepository.upsert store d now).1 (i + 1)
          (fun x hx => hQ x (List.mem_cons_of_mem d hx)) doc hmem hv

/-- The deduplication pass only keeps rows of its input. -/
theorem dedup_mem : ∀ (rows : List TurnoInsert) (seen : List String)
    (d : TurnoInsert), d ∈ (dedupByFecha seen rows).1 → d ∈ rows := by
  intro rows
  induction rows with
  | nil => intro seen d h; simp [dedupByFecha] at h
  | cons r rs ih =>
    intro seen d h
    by_cases hc : seen.contains r.fecha
    · simp only [dedupByFecha, hc, if_true] at h
      exact List.mem_cons_of_mem r (ih seen d h)
    · simp only [dedupByFecha, hc, if_false] at h
      rcases List.mem_cons.mp h with he | hm
      · exact he ▸ List.mem_cons_self r rs
      · exact List.mem_cons_of_mem r (ih (r.fecha :: seen) d hm)

/-- Every candidate the Excel row phase emits has its shift fields explicitly
undefined whenever it is a vacation candidate. -/
theorem excelPhase1_vac : ∀ (rows : List RawExcelRow) (idx : Nat)
    (d : TurnoInsert), d ∈ (excelPhase1 idx rows).2 → d.esVacaciones = true →
    d.turno = .undef ∧ d.startShift = .undef ∧ d.endShift = .undef := by
  intro rows
  induction rows with
  | nil => intro idx d h; simp [excelPhase1] at h
  | cons r rs ih =>
    intro idx d h hv
    cases hp : excelRowSchemaParse r with
    | error e =>
      simp only [excelPhase1, hp] at h
      exact ih (idx + 1) d h hv
    | ok vr =>
      simp only [excelPhase1, hp] at h
      rcases List.mem_cons.mp h with he | hm
      · subst he
        simp only at hv
        simp [hv]
      · exact ih (idx + 1) d hm hv

/-- C2: a vacation record comes out of both write paths with shiftType,
startTime and endTime all absent, regardless of the values supplied for those
fields: the single-record upsert clears them before persisting, and the
Excel import path builds every vacation candidate with them cleared. -/
theorem vacation_clears_shift_fields :
    (∀ (store : Store) (data : TurnoInsert) (now : Nat) (st : Store)
      (doc : TurnoDocument),
      TurnoService.upsertTurno store data now = .ok (st, doc) →
      data.esVacaciones = true →
      doc.turno = none ∧ doc.startShift = none ∧ doc.endShift = none) ∧
    (∀ (store : Store) (rows : List RawExcelRow) (failAt : Nat → Bool) (now : Nat)
      (doc : TurnoDocument),
      doc ∈ (TurnoService.processExcelData store rows failAt now).2.items →
      doc.esVacaciones = true →
      doc.turno = none ∧ doc.startShift = none ∧ doc.endShift = none) := by
  constructor
  · intro store data now st doc h hv
    simp only [TurnoService.upsertTurno] at h
    by_cases hs : turnoInsertSchemaOk data
    · simp only [hs, Bool.not_true, Bool.false_eq_true, if_false] at h
      cases hn : normalizeDateInput data.fecha defaultLocaleConfig with
      | error e => rw [hn] at h; exact absurd h (by simp)
      | ok fecha =>
        rw [hn] at h
        simp only at h
        have hvc : vacClear { data with fecha := fecha } =
            { data with fecha := fecha, turno := .undef, startShift := .undef, endShift := .undef } := by
          simp [vacClear, hv]
        rw [hvc] at h
        simp only [JsOpt.truthy, Bool.false_and, Bool.and_false, Bool.false_or,
          Bool.and_self, if_false, Bool.not_false, Bool.true_and] at h
        have hdoc : doc =
            (TurnoRepository.upsert store
              { data with fecha := fecha, turno := .undef, startShift := .undef, endShift := .undef } now).2 := by
          cases h' : TurnoRepository.upsert store
              { data with fecha := fecha, turno := .undef, startShift := .undef, endShift := .undef } now with
          | mk s2 d2 => rw [h'] at h; cases h; rfl
        subst hdoc
        have hu := upsert_undef_fields store
          { data with fecha := fecha, turno := .undef, startShift := .undef, endShift := .undef } now
        exact ⟨hu.2.1 rfl, hu.2.2.1 rfl, hu.2.2.2 rfl⟩
    · simp [hs] at h
  · intro store rows failAt now doc hm hv
    simp only [TurnoService.processExcelData, TurnoRepository.bulkUpsert] at hm
    refine bulkGo_items_vac failAt now (dedupByFecha [] (excelPhase1 0 rows).2).1
      store 0 ?_ doc hm hv
    intro d hd
    exact excelPhase1_vac rows 0 d (dedup_mem (excelPhase1 0 rows).2 [] d hd)

/-- C2 witness: a concrete vacation payload that also supplies a shift and
both times is stored with all three fields absent. -/
theorem vacation_clears_shift_fields_witness :
    c2vacData.esVacaciones = true ∧
    TurnoService.upsertTurno [] c2vacData 7 =
      .ok ([createTurnoDocument (vacClear c2vacData) 7],
        createTurnoDocument (vacClear c2vacData) 7) ∧
    (createTurnoDocument (vacClear c2vacData) 7).turno = none ∧
    (createTurnoDocument (vacClear c2vacData) 7).startShift = none ∧
    (createTurnoDocument (vacClear c2vacData) 7).endShift = none := by
  have heq : TurnoService.upsertTurno [] c2vacData 7 =
      .ok ([createTurnoDocument (vacClear c2vacData) 7],
        createTurnoDocument (vacClear c2vacData) 7) := by rfl
  have h := vacation_clears_shift_fields.1 [] c2vacData 7
    [createTurnoDocument (vacClear c2vacData) 7]
    (createTurnoDocument (vacClear c2vacData) 7) heq rfl
  exact ⟨rfl, heq, h.1, h.2.1, h.2.2⟩

/-- The four field checks packed into turnoInsertSchemaOk. -/
theorem schemaOk_parts {d : TurnoInsert} (hok : turnoInsertSchemaOk d = true) :
    matchesCanonical d.fecha = true ∧ jsOptField enumTurno d.turno = true ∧
    jsOptField isValidTimeHHMM d.startShift = true ∧
    jsOptField isValidTimeHHMM d.endShift = true := by
  simp only [turnoInsertSchemaOk, Bool.and_eq_true] at hok
  exact ⟨hok.1.1.1, hok.1.1.2, hok.1.2, hok.2⟩

/-- A canonical date string passes normalizeDateInput unchanged. -/
theorem normalizeDateInput_canonical {s : String} (h : matchesCanonical s = true)
    (cfg : LocaleConfig) : normalizeDateInput s cfg = .ok s := by
  simp [normalizeDateInput, h]

/-- On a payload that passes the Zod schema, upsertTurno is the business-rule
cascade over the vacation-cleared payload. -/
theorem upsertTurno_unfold (store : Store) (data : TurnoInsert) (now : Nat)
    (hok : turnoInsertSchemaOk data = true) :
    TurnoService.upsertTurno store data now =
      (if (vacClear data).turno.truthy && (vacClear data).esVacaciones then
        .error msgConflict
      else if ((vacClear data).startShift.truthy && !(vacClear data).endShift.truthy) ||
              (!(vacClear data).startShift.truthy && (vacClear data).endShift.truthy) then
        .error msgPairing
      else if (vacClear data).startShift.truthy && (vacClear data).endShift.truthy &&
              decide (timeToMinutes (vacClear data).startShift.valD ≥
                timeToMinutes (vacClear data).endShift.valD) &&
              decide (timeToMinutes (vacClear data).endShift.valD ≠ 0) then
        .error msgOrder
      else .ok (TurnoRepository.upsert store (vacClear data) now)) := by
  have hc := (schemaOk_parts hok).1
  simp only [TurnoService.upsertTurno, hok, Bool.not_true, Bool.false_eq_true,
    if_false, normalizeDateInput_canonical hc]

/-- A digit character is not a colon (beq form). -/
theorem isDig_beq_colon {c : Char} (h : isDig c = true) : (c == ':') = false := by
  simp only [isDig, Bool.or_eq_true, beq_iff_eq] at h
  rcases h with ((((((((h|h)|h)|h)|h)|h)|h)|h)|h)|h <;> subst h <;> decide

/-- A digit character with digit value zero is the character zero. -/
theorem digitVal_zero {c : Char} (hd : isDig c = true) (h : digitVal c = 0) :
    c = '0' := by
  simp only [isDig, Bool.or_eq_true, beq_iff_eq] at hd
  rcases hd with ((((((((h1|h1)|h1)|h1)|h1)|h1)|h1)|h1)|h1)|h1 <;> subst h1 <;>
    first | rfl | (simp [digitVal] at h)

/-- Shape of a string accepted by the strict HH:MM regex: five characters,
a colon in the middle, digits elsewhere. -/
theorem validTime_shape {s : String} (hv : isValidTimeHHMM s = true) :
    ∃ h1 h2 m1 m2, s.data = [h1, h2, ':', m1, m2] ∧
      isDig h1 = true ∧ isDig h2 = true ∧ isDig m1 = true ∧ isDig m2 = true := by
  obtain ⟨l⟩ := s
  rcases l with _ | ⟨c1, _ | ⟨c2, _ | ⟨c3, _ | ⟨c4, _ | ⟨c5, _ | ⟨c6, l⟩⟩⟩⟩⟩⟩ <;>
    simp only [isValidTimeHHMM, String.toList] at hv <;>
    try exact absurd hv Bool.false_ne_true
  simp only [Bool.and_eq_true, Bool.or_eq_true, beq_iff_eq] at hv
  obtain ⟨⟨⟨hc, hh⟩, hm1⟩, hm2⟩ := hv
  subst hc
  refine ⟨c1, c2, c4, c5, rfl, ?_, ?_, ?_, hm2⟩
  · rcases hh with ⟨h1, _⟩ | ⟨h1, _⟩
    · rcases h1 with h1|h1 <;> subst h1 <;> decide
    · subst h1; decide
  · rcases hh with ⟨_, h2⟩ | ⟨_, h2⟩
    · exact h2
    · rcases h2 with ((h|h)|h)|h <;> subst h <;> decide
  · rcases hm1 with ((((h|h)|h)|h)|h)|h <;> subst h <;> decide

/-- Minute arithmetic of a strict HH:MM string in terms of its digit
characters. -/
theorem timeToMinutes_of_shape {h1 h2 m1 m2 : Char}
    (hd1 : isDig h1 = true) (hd2 : isDig h2 = true)
    (hd3 : isDig m1 = true) (hd4 : isDig m2 = true) :
    timeToMinutes (String.mk [h1, h2, ':', m1, m2]) =
      (digitVal h1 * 10 + digitVal h2) * 60 + (digitVal m1 * 10 + digitVal m2) := by
  have e1 := isDig_beq_colon hd1
  have e2 := isDig_beq_colon hd2
  have e3 := isDig_beq_colon hd3
  have e4 := isDig_beq_colon hd4
  simp [timeToMinutes, String.toList, splitOnColon, e1, e2, e3, e4, numVal]

/-- Only "00:00" among strict HH:MM strings maps to minute zero. -/
theorem validTime_minutes_zero {s : String} (hv : isValidTimeHHMM s = true)
    (h0 : timeToMinutes s = 0) : s = "00:00" := by
  obtain ⟨h1, h2, m1, m2, hsh, hd1, hd2, hd3, hd4⟩ := validTime_shape hv
  obtain ⟨l⟩ := s
  simp only [String.data] at hsh
  subst hsh
  rw [timeToMinutes_of_shape hd1 hd2 hd3 hd4] at h0
  have hz1 : digitVal h1 = 0 := by omega
  have hz2 : digitVal h2 = 0 := by omega
  have hz3 : digitVal m1 = 0 := by omega
  have hz4 : digitVal m2 = 0 := by omega
  rw [digitVal_zero hd1 hz1, digitVal_zero hd2 hz2,
    digitVal_zero hd3 hz3, digitVal_zero hd4 hz4]

/-- A string accepted by the strict HH:MM regex is nonempty. -/
theorem validTime_ne_empty {s : String} (hv : isValidTimeHHMM s = true) :
    s ≠ "" := by
  obtain ⟨h1, h2, m1, m2, hsh, _⟩ := validTime_shape hv
  intro he
  rw [he] at hsh
  simp at hsh

/-- The shift/vacation exclusivity guard of upsertTurno never fires: the
vacation clear runs first, so after it a vacation payload has no truthy
turno left. -/
theorem conflict_guard_false (d : TurnoInsert) :
    ((vacClear d).turno.truthy && (vacClear d).esVacaciones) = false := by
  by_cases hv : d.esVacaciones
  · simp [vacClear, hv, JsOpt.truthy]
  · simp [vacClear, hv]

/-- C3: for a schema-valid non-vacation payload carrying both shift times,
upsertTurno fails with the time-order error exactly when the start time is
numerically at or after the end time and the end time is not midnight
("00:00"), the overnight exception. -/
theorem time_order_error_iff (store : Store) (data : TurnoInsert) (now : Nat)
    (s e : String) (hok : turnoInsertSchemaOk data = true)
    (hs : data.startShift = .val s) (he : data.endShift = .val e)
    (hvac : data.esVacaciones = false) :
    TurnoService.upsertTurno store data now = .error msgOrder ↔
      (timeToMinutes s ≥ timeToMinutes e ∧ e ≠ "00:00") := by
  have hvs : isValidTimeHHMM s = true := by
    have h := (schemaOk_parts hok).2.2.1
    rw [hs] at h
    exact h
  have hve : isValidTimeHHMM e = true := by
    have h := (schemaOk_parts hok).2.2.2
    rw [he] at h
    exact h
  have hclear : vacClear data = data := by simp [vacClear, hvac]
  have hts : (JsOpt.val s).truthy = true := by
    simp [JsOpt.truthy, validTime_ne_empty hvs]
  have hte : (JsOpt.val e).truthy = true := by
    simp [JsOpt.truthy, validTime_ne_empty hve]
  rw [upsertTurno_unfold store data now hok]
  rw [hclear, hs, he, hvac]
  simp only [hts, hte, JsOpt.valD, Bool.and_false, Bool.false_eq_true, if_false,
    Bool.not_true, Bool.false_and, Bool.and_true, Bool.true_and, Bool.false_or,
    Bool.or_self, Bool.and_self]
  by_cases hcond : (decide (timeToMinutes s ≥ timeToMinutes e) &&
      decide (timeToMinutes e ≠ 0)) = true
  · rw [if_pos hcond]
    simp only [Bool.and_eq_true, decide_eq_true_eq] at hcond
    constructor
    · intro _
      refine ⟨hcond.1, ?_⟩
      intro hE
      apply hcond.2
      rw [hE]
      rfl
    · intro _
      rfl
  · rw [if_neg hcond]
    constructor
    · intro h
      exact absurd h (by simp)
    · intro ⟨hge, hne⟩
      exfalso
      apply hcond
      simp only [Bool.and_eq_true, decide_eq_true_eq]
      refine ⟨hge, ?_⟩
      intro h0
      exact hne (validTime_minutes_zero hve h0)

/-- C3 witness: the three time pairs of the claim, at a concrete payload:
(22:00, 06:00) is rejected, (07:00, 15:00) and the overnight (22:00, 00:00)
are not. -/
theorem time_order_error_iff_witness :
    TurnoService.upsertTurno [] (mkTimesData (.val "22:00") (.val "06:00")) 0 =
      .error msgOrder ∧
    ¬ (TurnoService.upsertTurno [] (mkTimesData (.val "07:00") (.val "15:00")) 0 =
      .error msgOrder) ∧
    ¬ (TurnoService.upsertTurno [] (mkTimesData (.val "22:00") (.val "00:00")) 0 =
      .error msgOrder) := by
  have h1 := time_order_error_iff [] (mkTimesData (.val "22:00") (.val "06:00")) 0
    "22:00" "06:00" (by decide) rfl rfl rfl
  have h2 := time_order_error_iff [] (mkTimesData (.val "07:00") (.val "15:00")) 0
    "07:00" "15:00" (by decide) rfl rfl rfl
  have h3 := time_order_error_iff [] (mkTimesData (.val "22:00") (.val "00:00")) 0
    "22:00" "00:00" (by decide) rfl rfl rfl
  refine ⟨h1.mpr (by decide), ?_, ?_⟩
  · intro h
    exact absurd (h2.mp h) (by decide)
  · intro h
    exact absurd (h3.mp h) (by decide)

/-- C9: for a schema-valid payload, upsertTurno fails with the
incomplete-time-range error exactly when, after the vacation clear, exactly
one of the two shift times is present. -/
theorem incomplete_time_range_iff (store : Store) (data : TurnoInsert)
    (now : Nat) (hok : turnoInsertSchemaOk data = true) :
    TurnoService.upsertTurno store data now = .error msgPairing ↔
      (vacClear data).startShift.truthy ≠ (vacClear data).endShift.truthy := by
  rw [upsertTurno_unfold store data now hok, conflict_guard_false data]
  simp only [Bool.false_eq_true, if_false]
  by_cases hg : ((vacClear data).startShift.truthy && !(vacClear data).endShift.truthy ||
      (!(vacClear data).startShift.truthy && (vacClear data).endShift.truthy)) = true
  · rw [if_pos hg]
    constructor
    · intro _
      revert hg
      cases (vacClear data).startShift.truthy <;>
        cases (vacClear data).endShift.truthy <;> simp
    · intro _
      rfl
  · rw [if_neg hg]
    constructor
    · intro h
      by_cases h3 : ((vacClear data).startShift.truthy && (vacClear data).endShift.truthy &&
          decide (timeToMinutes (vacClear data).startShift.valD ≥
            timeToMinutes (vacClear data).endShift.valD) &&
          decide (timeToMinutes (vacClear data).endShift.valD ≠ 0)) = true
      · rw [if_pos h3] at h
        exact absurd h (by simp [msgOrder, msgPairing])
      · rw [if_neg h3] at h
        exact absurd h (by simp)
    · intro hne
      exfalso
      apply hg
      revert hne
      cases (vacClear data).startShift.truthy <;>
        cases (vacClear data).endShift.truthy <;> simp
  
/-- C9 witness: a payload with only a start time is rejected with the
incomplete-time-range error; one with both times is not. -/
theorem incomplete_time_range_iff_witness :
    TurnoService.upsertTurno [] (mkTimesData (.val "07:00") .absent) 0 =
      .error msgPairing ∧
    ¬ (TurnoService.upsertTurno [] (mkTimesData (.val "07:00") (.val "15:00")) 0 =
      .error msgPairing) := by
  have h1 := incomplete_time_range_iff [] (mkTimesData (.val "07:00") .absent) 0
    (by decide)
  have h2 := incomplete_time_range_iff []
    (mkTimesData (.val "07:00") (.val "15:00")) 0 (by decide)
  refine ⟨h1.mpr (by decide), ?_⟩
  intro h
  exact absurd (h2.mp h) (by decide)

/-- Invariants of the bulk-upsert loop, by induction over the candidate list:
the final store and the produced items come from sequentially upserting
exactly the non-failing candidates, updated counts the candidates that found
an existing record, inserted the rest, and each failing candidate adds one to
skipped and one warning. -/
theorem bulkGo_spec (failAt : Nat → Bool) (now : Nat) :
    ∀ (datas : List TurnoInsert) (store : Store) (i : Nat),
    (bulkUpsertGo failAt now store i datas).1 =
        upsertAll now store (okSublistGo failAt i datas) ∧
    (bulkUpsertGo failAt now store i datas).2.items =
        persistedDocs now store (okSublistGo failAt i datas) ∧
    (bulkUpsertGo failAt now store i datas).2.updated =
        countExisting now store (okSublistGo failAt i datas) ∧
    (bulkUpsertGo failAt now store i datas).2.inserted +
        (bulkUpsertGo failAt now store i datas).2.updated =
        (okSublistGo failAt i datas).length ∧
    (bulkUpsertGo failAt now store i datas).2.skipped +
        (okSublistGo failAt i datas).length = datas.length ∧
    (bulkUpsertGo failAt now store i datas).2.warnings.length =
        (bulkUpsertGo failAt now store i datas).2.skipped := by
  intro datas
  induction datas with
  | nil =>
    intro store i
    simp [bulkUpsertGo, okSublistGo, upsertAll, persistedDocs, countExisting]
  | cons d ds ih =>
    intro store i
    by_cases hf : failAt i
    · obtain ⟨e1, e2, e3, e4, e5, e6⟩ := ih store (i + 1)
      simp only [bulkUpsertGo, okSublistGo, hf, if_true, List.length_cons,
        List.length_cons]
      refine ⟨e1, e2, e3, e4, by omega, by simpa using e6⟩
    · rw [Bool.not_eq_true] at hf
      obtain ⟨e1, e2, e3, e4, e5, e6⟩ := ih (TurnoRepository.upsert store d now).1 (i + 1)
      simp only [bulkUpsertGo, okSublistGo, hf, Bool.false_eq_true, if_false]
      cases hex : findByFecha store d.fecha d.personaId.toOption with
      | none =>
        simp only [upsertAll, persistedDocs, countExisting, hex, Option.isSome_none,
          if_false, List.length_cons]
        exact ⟨e1, by simpa using e2, by simpa using e3, by omega, by omega,
          by simpa using e6⟩
      | some ex =>
        simp only [upsertAll, persistedDocs, countExisting, hex, Option.isSome_some,
          if_true, List.length_cons]
        exact ⟨e1, by simpa using e2, by omega, by omega, by omega,
          by simpa using e6⟩

/-- C4: bulk-upsert accounting. Every candidate is counted exactly once —
updated when a record already existed at its key when it was processed,
inserted otherwise, skipped when its storage round-trip failed — so inserted
+ updated + skipped equals the number of candidates; each failure appends one
warning and aborts nothing: the final store and the returned items are exactly
those of sequentially persisting the non-failing candidates. -/
theorem bulk_upsert_accounting (store : Store) (datas : List TurnoInsert)
    (failAt : Nat → Bool) (now : Nat) :
    (TurnoRepository.bulkUpsert store datas failAt now).2.inserted +
      (TurnoRepository.bulkUpsert store datas failAt now).2.updated +
      (TurnoRepository.bulkUpsert store datas failAt now).2.skipped = datas.length ∧
    (TurnoRepository.bulkUpsert store datas failAt now).2.skipped +
      (okSublist datas failAt).length = datas.length ∧
    (TurnoRepository.bulkUpsert store datas failAt now).2.warnings.length =
      (TurnoRepository.bulkUpsert store datas failAt now).2.skipped ∧
    (TurnoRepository.bulkUpsert store datas failAt now).2.items =
      persistedDocs now store (okSublist datas failAt) ∧
    (TurnoRepository.bulkUpsert store datas failAt now).1 =
      upsertAll now store (okSublist datas failAt) ∧
    (TurnoRepository.bulkUpsert store datas failAt now).2.updated =
      countExisting now store (okSublist datas failAt) ∧
    (TurnoRepository.bulkUpsert store datas failAt now).2.inserted +
      countExisting now store (okSublist datas failAt) =
      (okSublist datas failAt).length := by
  obtain ⟨e1, e2, e3, e4, e5, e6⟩ := bulkGo_spec failAt now datas store 0
  simp only [TurnoRepository.bulkUpsert, okSublist]
  exact ⟨by omega, e5, e6, e2, e1, e3, by omega⟩

/-- Extending the seen set by one date is the same as filtering that date out
after filtering the old seen set. -/
theorem filter_seen_cons (f : String) (seen : List String) (rs : List TurnoInsert) :
    rs.filter (fun x => !((f :: seen).contains x.fecha)) =
    (rs.filter (fun x => !(seen.contains x.fecha))).filter (fun x => x.fecha != f) := by
  rw [List.filter_filter]
  apply List.filter_congr
  intro a _
  simp only [List.contains_cons, Bool.not_or, bne]

/-- The kept rows of the deduplication pass are the first-occurrence filter of
the rows whose date is not already in the seen set. -/
theorem dedup_fst_eq : ∀ (rows : List TurnoInsert) (seen : List String),
    (dedupByFecha seen rows).1 =
      keepFirstByFecha (rows.filter (fun r => !(seen.contains r.fecha))) := by
  intro rows
  induction rows with
  | nil => intro seen; simp [dedupByFecha, keepFirstByFecha]
  | cons r rs ih =>
    intro seen
    by_cases hc : seen.contains r.fecha
    · rw [List.filter_cons_of_neg (by simpa using hc)]
      simp only [dedupByFecha, hc, if_true]
      exact ih seen
    · rw [Bool.not_eq_true] at hc
      rw [List.filter_cons_of_pos (by simpa using hc)]
      simp only [dedupByFecha, hc, Bool.false_eq_true, if_false]
      rw [keepFirstByFecha, ih (r.fecha :: seen), filter_seen_cons]

/-- Each dropped duplicate row contributes exactly one warning: kept rows plus
duplicate warnings add up to the input rows. -/
theorem dedup_counts : ∀ (rows : List TurnoInsert) (seen : List String),
    (dedupByFecha seen rows).1.length + (dedupByFecha seen rows).2.length =
      rows.length := by
  intro rows
  induction rows with
  | nil => intro seen; rfl
  | cons r rs ih =>
    intro seen
    by_cases hc : seen.contains r.fecha
    · simp only [dedupByFecha, hc, if_true, List.length_cons]
      have := ih seen
      omega
    · rw [Bool.not_eq_true] at hc
      simp only [dedupByFecha, hc, Bool.false_eq_true, if_false, List.length_cons]
      have := ih (r.fecha :: seen)
      omega

/-- C5: deduplication by date keeps the first occurrence of each date in file
order and emits one duplicate-date warning per dropped row; on the
three-row example of the spec (two rows for 2025-01-01, then a vacation row
for 2025-01-02) against an empty store, exactly two records are stored,
insertedCount is 2 and the single warning is the duplicate-date one. -/
theorem dedup_first_wins_and_example :
    (∀ valid : List TurnoInsert,
      (dedupByFecha [] valid).1 = keepFirstByFecha valid ∧
      (dedupByFecha [] valid).1.length + (dedupByFecha [] valid).2.length =
        valid.length) ∧
    ((TurnoService.processExcelData [] [c5row1, c5row2, c5row3]
        (fun _ => false) 0).2.inserted = 2 ∧
     (TurnoService.processExcelData [] [c5row1, c5row2, c5row3]
        (fun _ => false) 0).2.updated = 0 ∧
     (TurnoService.processExcelData [] [c5row1, c5row2, c5row3]
        (fun _ => false) 0).2.warnings =
        ["Fecha duplicada en archivo: 2025-01-01"] ∧
     (TurnoService.processExcelData [] [c5row1, c5row2, c5row3]
        (fun _ => false) 0).1.length = 2 ∧
     (TurnoService.processExcelData [] [c5row1, c5row2, c5row3]
        (fun _ => false) 0).2.items.map
          (fun d => (d.fecha, d.esVacaciones, d.turno)) =
        [("2025-01-01", false, some "mañana"), ("2025-01-02", true, none)]) := by
  constructor
  · intro valid
    constructor
    · have h := dedup_fst_eq valid []
      simpa using h
    · exact dedup_counts valid []
  · refine ⟨by decide, by decide, by decide, by decide, by decide⟩

/-- Incrementing one key raises the counter total by one. -/
theorem sumCounts_incr : ∀ (m : List (String × Nat)) (k : String),
    sumCounts (incrKey m k) = sumCounts m + 1 := by
  intro m k
  induction m with
  | nil => simp [incrKey, sumCounts]
  | cons p rest ih =>
    obtain ⟨k0, n⟩ := p
    by_cases h : k0 == k
    · simp only [incrKey, h, if_true, sumCounts, List.map_cons, List.sum_cons]
      omega
    · rw [Bool.not_eq_true] at h
      simp only [incrKey, h, Bool.false_eq_true, if_false, sumCounts,
        List.map_cons, List.sum_cons]
      have := ih
      simp only [sumCounts] at this
      omega

/-- What the counting loop accumulates: the vacation tally counts vacation
records, the shift-type counters in total count exactly the non-vacation
records with a truthy shift type. -/
theorem statsLoopGo_spec : ∀ (docs : List TurnoDocument)
    (pt : List (String × Nat)) (vac : Nat),
    (statsLoopGo (pt, vac) docs).2 =
      vac + docs.countP (fun d => d.esVacaciones) ∧
    sumCounts (statsLoopGo (pt, vac) docs).1 =
      sumCounts pt + docs.countP (fun d => !d.esVacaciones && turnoTruthyB d) := by
  intro docs
  induction docs with
  | nil => intro pt vac; simp [statsLoopGo]
  | cons d ds ih =>
    intro pt vac
    by_cases hv : d.esVacaciones
    · have h := ih pt (vac + 1)
      refine ⟨?_, ?_⟩ <;>
        simp [statsLoopGo, statsStep, hv, List.countP_cons, h.1, h.2] <;> omega
    · rw [Bool.not_eq_true] at hv
      by_cases ht : turnoTruthyB d
      · have h := ih (incrKey pt (d.turno.getD "")) vac
        refine ⟨?_, ?_⟩ <;>
          simp [statsLoopGo, statsStep, hv, ht, List.countP_cons, h.1, h.2,
            sumCounts_incr] <;> omega
      · rw [Bool.not_eq_true] at ht
        have h := ih pt vac
        refine ⟨?_, ?_⟩ <;>
          simp [statsLoopGo, statsStep, hv, ht, List.countP_cons, h.1, h.2] <;>
          omega

/-- Each filtered record falls in exactly one of the three tallies: vacation,
non-vacation with shift type, non-vacation without. -/
theorem countP_three (docs : List TurnoDocument) :
    docs.countP (fun d => d.esVacaciones) +
    docs.countP (fun d => !d.esVacaciones && turnoTruthyB d) +
    docs.countP (fun d => !d.esVacaciones && !(turnoTruthyB d)) = docs.length := by
  induction docs with
  | nil => simp
  | cons d ds ih =>
    simp only [List.countP_cons, List.length_cons]
    by_cases hv : d.esVacaciones <;> by_cases ht : turnoTruthyB d <;>
      simp [hv, ht] <;> omega

/-- C6 counterexample: on a store holding one non-vacation record without a
shift type, the shift-type counters sum to 0 while total minus vacationCount
is 1, so the shift-type counters do not always sum to total minus
vacationCount. -/
theorem stats_shift_sum_gap_cex :
    ¬ (sumCounts (TurnoRepository.getStats [c6exDoc] none none).porTurno =
       (TurnoRepository.getStats [c6exDoc] none none).total -
       (TurnoRepository.getStats [c6exDoc] none none).vacaciones) := by
  decide

/-- C6 (amended): the statistics aggregation counts vacationCount as exactly
the records with isVacation true, and the per-shift-type counters sum to the
number of non-vacation records that carry a shift type — that is, total minus
vacationCount minus the non-vacation records without a shift type. -/
theorem stats_counts_amended (docs : List TurnoDocument)
    (fromDate toDate : Option String) :
    (TurnoRepository.getStats docs fromDate toDate).vacaciones =
      (cloudStatsFilter fromDate toDate docs).countP (fun d => d.esVacaciones) ∧
    sumCounts (TurnoRepository.getStats docs fromDate toDate).porTurno =
      (cloudStatsFilter fromDate toDate docs).countP
        (fun d => !d.esVacaciones && turnoTruthyB d) ∧
    (TurnoRepository.getStats docs fromDate toDate).total =
      (cloudStatsFilter fromDate toDate docs).length ∧
    sumCounts (TurnoRepository.getStats docs fromDate toDate).porTurno +
      (cloudStatsFilter fromDate toDate docs).countP
        (fun d => !d.esVacaciones && !(turnoTruthyB d)) +
      (TurnoRepository.getStats docs fromDate toDate).vacaciones =
      (TurnoRepository.getStats docs fromDate toDate).total := by
  have h := statsLoopGo_spec (cloudStatsFilter fromDate toDate docs) [] 0
  have h3 := countP_three (cloudStatsFilter fromDate toDate docs)
  simp only [TurnoRepository.getStats, statsLoop]
  have hs0 : sumCounts ([] : List (String × Nat)) = 0 := rfl
  refine ⟨?_, ?_, trivial, ?_⟩
  · rw [h.1]; omega
  · rw [h.2, hs0]; omega
  · rw [h.1, h.2, hs0]; omega

/-- Boolean complement of a strict string comparison. -/
theorem not_decide_lt (x y : String) : (!decide (x < y)) = decide (y ≤ x) := by
  rw [← decide_not]
  exact decide_eq_decide.mpr not_lt

/-- The two backends build the same date-range restriction: the JSON
backend's two independent bound checks coincide with the cloud backend's
WHERE clause in all four from/to cases. -/
theorem jsonFilter_eq_cloudFilter (fromDate toDate : Option String)
    (docs : List TurnoDocument) :
    jsonStatsFilter fromDate toDate docs = cloudStatsFilter fromDate toDate docs := by
  cases fromDate with
  | none =>
    cases toDate with
    | none => rfl
    | some t =>
      simp only [jsonStatsFilter, cloudStatsFilter, Option.isSome_none,
        Option.isSome_some, Bool.false_or, if_true]
      apply List.filter_congr
      intro a _
      rw [show (!(match (none : Option String) with
          | some f => decide (a.fecha < f) | none => false) &&
          !decide (t < a.fecha)) =
          (!false && !decide (t < a.fecha)) from rfl]
      rw [Bool.not_false, Bool.true_and, not_decide_lt]
  | some f =>
    cases toDate with
    | none =>
      simp only [jsonStatsFilter, cloudStatsFilter, Option.isSome_none,
        Option.isSome_some, Bool.true_or, if_true]
      apply List.filter_congr
      intro a _
      rw [show (!decide (a.fecha < f) &&
          !(match (none : Option String) with
          | some t => decide (t < a.fecha) | none => false)) =
          (!decide (a.fecha < f) && !false) from rfl]
      rw [Bool.not_false, Bool.and_true, not_decide_lt]
    | some t =>
      simp only [jsonStatsFilter, cloudStatsFilter, Option.isSome_some,
        Bool.true_or, if_true]
      apply List.filter_congr
      intro a _
      rw [not_decide_lt, not_decide_lt]

/-- C10: on identical stored records and identical optional range bounds, the
read-only JSON backend's statistics equal the cloud backend's; in both, a
record counts toward vacationCount exactly when isVacation is true, and the
shift-type counters count exactly the non-vacation records with a shift type
present — so a record with both a vacation flag and a shift type counts only
as vacation. -/
theorem json_cloud_stats_agree (docs : List TurnoDocument)
    (fromDate toDate : Option String) :
    JsonTurnoRepository.getStats docs fromDate toDate =
      TurnoRepository.getStats docs fromDate toDate ∧
    (JsonTurnoRepository.getStats docs fromDate toDate).vacaciones =
      (jsonStatsFilter fromDate toDate docs).countP (fun d => d.esVacaciones) ∧
    sumCounts (JsonTurnoRepository.getStats docs fromDate toDate).porTurno =
      (jsonStatsFilter fromDate toDate docs).countP
        (fun d => !d.esVacaciones && turnoTruthyB d) := by
  have hf := jsonFilter_eq_cloudFilter fromDate toDate docs
  have h := statsLoopGo_spec (jsonStatsFilter fromDate toDate docs) [] 0
  have hs0 : sumCounts ([] : List (String × Nat)) = 0 := rfl
  refine ⟨?_, ?_, ?_⟩
  · simp only [JsonTurnoRepository.getStats, TurnoRepository.getStats, statsLoop, hf]
  · simp only [JsonTurnoRepository.getStats, statsLoop]
    rw [h.1]
    omega
  · simp only [JsonTurnoRepository.getStats, statsLoop]
    rw [h.2, hs0]
    omega

/-- C7: date normalization round-trips at the canonical form (any string
matching the canonical pattern is returned unchanged), maps the
day-first short form "15/1/2025" to "2025-01-15" under the default
(day-first) locale, and rejects every string matching neither pattern with
the invalid-date-format error. -/
theorem normalizeDate_roundtrip (s : String) :
    (matchesCanonical s = true →
      normalizeDateInput s defaultLocaleConfig = .ok s) ∧
    (matchesCanonical s = false → matchesShortSlash s = false →
      normalizeDateInput s defaultLocaleConfig =
        .error ("Formato de fecha no válido: " ++ s ++
          ". Use YYYY-MM-DD o el formato apropiado para su región")) ∧
    normalizeDateInput "15/1/2025" defaultLocaleConfig = .ok "2025-01-15" := by
  refine ⟨?_, ?_, by rfl⟩
  · intro h
    simp [normalizeDateInput, h]
  · intro h1 h2
    simp [normalizeDateInput, h1, h2]

/-- C7 witness: a canonical date returned unchanged and a free-text string
rejected. -/
theorem normalizeDate_roundtrip_witness :
    normalizeDateInput "2024-12-31" defaultLocaleConfig = .ok "2024-12-31" ∧
    normalizeDateInput "hola" defaultLocaleConfig =
      .error ("Formato de fecha no válido: hola" ++
        ". Use YYYY-MM-DD o el formato apropiado para su región") := by
  exact ⟨(normalizeDate_roundtrip "2024-12-31").1 (by decide),
    (normalizeDate_roundtrip "hola").2.1 (by decide) (by decide)⟩

/-- C8: the Excel time normalization maps "7" to "07:00", "7:30 pm" to
"19:30", "12 am" to "00:00" and rejects "25:00", and the start-shift and
end-shift columns use the same transform. -/
theorem excel_time_normalization :
    startshiftTransform (some "7") = .ok (some "07:00") ∧
    startshiftTransform (some "7:30 pm") = .ok (some "19:30") ∧
    startshiftTransform (some "12 am") = .ok (some "00:00") ∧
    startshiftTransform (some "25:00") = .error "Invalid time format: 25:00" ∧
    endshiftTransform (some "7") = .ok (some "07:00") ∧
    endshiftTransform (some "7:30 pm") = .ok (some "19:30") ∧
    endshiftTransform (some "12 am") = .ok (some "00:00") ∧
    endshiftTransform (some "25:00") = .error "Invalid time format: 25:00" ∧
    startshiftTransform = endshiftTransform := by
  refine ⟨rfl, rfl, rfl, rfl, rfl, rfl, rfl, rfl, ?_⟩
  funext x
  cases x <;> rfl
